import Mathlib

/-!
Verification of the mockgen CLI driver (`mockgen/cli/cli.go`).

The file embeds the control flow of `main` as a pure Lean function.  The
external collaborators (the two extractors `SourceMode` / `ReflectMode`,
the working-directory lookup `os.Getwd`, `PackageNameOfDir`, the generator
method `Generate` and `OutputToDestination`) are abstracted as an
environment of `Except`-returning functions; `main` is embedded as a
function from that environment, the parsed flag values and the positional
argument list, to a trace of the externally visible calls together with a
final outcome (normal return or `log.Fatal`).
-/

namespace MockgenCli

/-- Abstract stand-in for `model.Package`: the CLI treats it as an opaque
value, moving it from the chosen extractor to the generator. -/
structure Package where
  tag : Nat
deriving DecidableEq, Repr

/-- The parsed values of the CLI flags declared in the `var` block of
`cli.go` (lines 40-58), one field per flag, with the Go flag defaults
recorded by `defaultFlagValues` below. -/
structure FlagValues where
  source : String
  destination : String
  mockNames : String
  packageOut : String
  selfPackage : String
  writeCmdComment : Bool
  writePkgComment : Bool
  writeSourceComment : Bool
  writeGenerateDirective : Bool
  copyrightFile : String
  typed : Bool
  importsFlag : String
  auxFiles : String
  excludeInterfaces : String
  debugParser : Bool
  showVersion : Bool
deriving DecidableEq, Repr

/-- Default flag values, as declared in `cli.go` lines 40-58. -/
def defaultFlagValues : FlagValues where
  source := ""
  destination := ""
  mockNames := ""
  packageOut := ""
  selfPackage := ""
  writeCmdComment := true
  writePkgComment := true
  writeSourceComment := true
  writeGenerateDirective := false
  copyrightFile := ""
  typed := false
  importsFlag := ""
  auxFiles := ""
  excludeInterfaces := ""
  debugParser := false
  showVersion := false

/-- The `generator.Flags` structure as filled in by `main`
(`cli.go` lines 64-79). -/
structure Flags where
  Source : String
  Destination : String
  MockNames : String
  PackageOut : String
  SelfPackage : String
  WriteCmdComment : Bool
  WritePkgComment : Bool
  WriteSourceComment : Bool
  WriteGenerateDirective : Bool
  CopyrightFile : String
  Typed : Bool
  Imports : String
  AuxFiles : String
  ExcludeInterfaces : String
deriving DecidableEq, Repr

/-- The `generator.Flags` literal built in `main` (lines 64-79): each field
is dereferenced from the corresponding flag. -/
def mkFlags (fl : FlagValues) : Flags where
  Source := fl.source
  Destination := fl.destination
  MockNames := fl.mockNames
  PackageOut := fl.packageOut
  SelfPackage := fl.selfPackage
  WriteCmdComment := fl.writeCmdComment
  WritePkgComment := fl.writePkgComment
  WriteSourceComment := fl.writeSourceComment
  WriteGenerateDirective := fl.writeGenerateDirective
  CopyrightFile := fl.copyrightFile
  Typed := fl.typed
  Imports := fl.importsFlag
  AuxFiles := fl.auxFiles
  ExcludeInterfaces := fl.excludeInterfaces

/-- The environment of external calls made by `main`.  Each corresponds to
one function of the `generator` package or of the standard library; a
`.error` result models a non-nil Go error.  `generate` returns the bytes
accumulated in the generator, which `output` then receives. -/
structure Env where
  sourceMode : String → String → String → String → Except String Package
  reflectMode : String → List String → Except String Package
  getwd : Except String String
  packageNameOfDir : String → Except String String
  generate : Package → String → String → Flags → Except String String
  output : String → String → Except String Unit

/-- The externally visible actions of one run of `main`, in order. -/
inductive Event where
  | printVersion : Event
  | printUsage : Event
  | callSourceMode (sourceFile importOverrides excludeNames auxFileList : String) : Event
  | callReflectMode (packageName : String) (interfaceNames : List String) : Event
  | printPackage (pkg : Package) : Event
  | callGenerate (pkg : Package) (packageName outputPackageName : String) (fls : Flags) : Event
  | callOutput (dest buf : String) : Event
deriving DecidableEq, Repr

/-- Final state of a run: normal return, or process exit via `log.Fatal`
with the formatted message. -/
inductive Outcome where
  | success : Outcome
  | fatal (msg : String) : Outcome
deriving DecidableEq, Repr

/-- `log.Fatal` exits the process with status 1; a normal return exits 0. -/
def Outcome.exitCode : Outcome → Nat
  | .success => 0
  | .fatal _ => 1

/-- A run's trace of external actions together with its outcome. -/
structure RunResult where
  events : List Event
  outcome : Outcome
deriving DecidableEq, Repr

/-- `flag.Arg(i)`: the i-th positional argument, `""` when out of range. -/
def goArg (args : List String) (i : Nat) : String :=
  (args.get? i).getD ""

/-- Go `strings.Split(s, ",")` on the character list of `s`: the maximal
comma-free segments, one more segment than there are commas; the empty
list yields `[[]]`. -/
def splitCommaList : List Char → List (List Char)
  | [] => [[]]
  | c :: cs =>
    if c = ',' then [] :: splitCommaList cs
    else
      match splitCommaList cs with
      | [] => [[c]]
      | h :: t => (c :: h) :: t

/-- Go `strings.Split(s, ",")` (line 97 of `cli.go`). -/
def goSplitComma (s : String) : List String :=
  (splitCommaList s.data).map (fun l => String.mk l)

/-- The reflect-mode package-name resolution (lines 96-107 of `cli.go`):
a `"."` locator is replaced by the package name of the current working
directory, any other locator is kept as is; the error carries the exact
`log.Fatalf` message of the failing step. -/
def resolvePackageName (env : Env) (arg0 : String) : Except String String :=
  if arg0 = "." then
    match env.getwd with
    | .error e => .error ("Get current directory failed: " ++ e)
    | .ok dir =>
      match env.packageNameOfDir dir with
      | .error e => .error ("Parse package name failed: " ++ e)
      | .ok name => .ok name
  else .ok arg0

/-- The extraction phase of `main` (lines 86-109 of `cli.go`): choose the
extractor from the `-source` flag, validate the positional arguments in
reflect mode, resolve a `"."` package locator through the working
directory, and run the chosen extractor.  Returns the events of the phase
and either the extracted package with the (possibly resolved) reflect-mode
package name — `""` in source mode — or the exact `log.Fatal` message of
the failure (lines 94, 101, 105 and 111). -/
def extractPhase (env : Env) (fl : FlagValues) (args : List String) :
    List Event × Except String (Package × String) :=
  if fl.source ≠ "" then
    match env.sourceMode fl.source fl.importsFlag fl.excludeInterfaces fl.auxFiles with
    | .error e =>
        ([.callSourceMode fl.source fl.importsFlag fl.excludeInterfaces fl.auxFiles],
          .error ("Loading input failed: " ++ e))
    | .ok pkg =>
        ([.callSourceMode fl.source fl.importsFlag fl.excludeInterfaces fl.auxFiles],
          .ok (pkg, ""))
  else if args.length ≠ 2 then
    ([.printUsage], .error "Expected exactly two arguments")
  else
    match resolvePackageName env (goArg args 0) with
    | .error m => ([], .error m)
    | .ok packageName =>
      match env.reflectMode packageName (goSplitComma (goArg args 1)) with
      | .error e =>
          ([.callReflectMode packageName (goSplitComma (goArg args 1))],
            .error ("Loading input failed: " ++ e))
      | .ok pkg =>
          ([.callReflectMode packageName (goSplitComma (goArg args 1))],
            .ok (pkg, packageName))

/-- The tail of `main` after a successful extraction (lines 114-126):
either dump the package in `-debug_parser` mode, or run `Generate` and,
on its success, `OutputToDestination`. -/
def runTail (env : Env) (fl : FlagValues) (args : List String)
    (pre : List Event) (pkg : Package) (packageName : String) : RunResult :=
  if fl.debugParser then
    ⟨pre ++ [.printPackage pkg], .success⟩
  else
    match env.generate pkg packageName (goArg args 1) (mkFlags fl) with
    | .error e =>
        ⟨pre ++ [.callGenerate pkg packageName (goArg args 1) (mkFlags fl)],
          .fatal ("Failed generating mock: " ++ e)⟩
    | .ok buf =>
      match env.output fl.destination buf with
      | .error e =>
          ⟨pre ++ [.callGenerate pkg packageName (goArg args 1) (mkFlags fl),
              .callOutput fl.destination buf],
            .fatal ("Failed output: " ++ e)⟩
      | .ok _ =>
          ⟨pre ++ [.callGenerate pkg packageName (goArg args 1) (mkFlags fl),
              .callOutput fl.destination buf], .success⟩

/-- `main` of `cli.go` (lines 60-127): print the version and return when
`-version` is set; otherwise extract, and on success continue with the
tail of the run. -/
def mainRun (env : Env) (fl : FlagValues) (args : List String) : RunResult :=
  if fl.showVersion then
    ⟨[.printVersion], .success⟩
  else
    match extractPhase env fl args with
    | (pre, .error m) => ⟨pre, .fatal m⟩
    | (pre, .ok (pkg, packageName)) => runTail env fl args pre pkg packageName

/-- Event classifiers used to count the calls of a trace. -/
def Event.isSourceCall : Event → Bool
  | .callSourceMode _ _ _ _ => true
  | _ => false

def Event.isReflectCall : Event → Bool
  | .callReflectMode _ _ => true
  | _ => false

def Event.isGenerateCall : Event → Bool
  | .callGenerate _ _ _ _ => true
  | _ => false

def Event.isOutputCall : Event → Bool
  | .callOutput _ _ => true
  | _ => false

def Event.isPrintPackage : Event → Bool
  | .printPackage _ => true
  | _ => false

def Event.isPrintUsage : Event → Bool
  | .printUsage => true
  | _ => false

/-- Number of events of a trace satisfying a classifier. -/
def countP (p : Event → Bool) (l : List Event) : Nat :=
  (l.filter p).length

/-- A concrete environment in which every external call succeeds. -/
def envOk : Env where
  sourceMode := fun _ _ _ _ => .ok ⟨1⟩
  reflectMode := fun _ _ => .ok ⟨2⟩
  getwd := .ok "/work"
  packageNameOfDir := fun _ => .ok "workpkg"
  generate := fun _ _ _ _ => .ok "generated"
  output := fun _ _ => .ok ()

/-- A concrete environment in which both extractors fail. -/
def envExtractFail : Env where
  sourceMode := fun _ _ _ _ => .error "bad source"
  reflectMode := fun _ _ => .error "bad reflect"
  getwd := .ok "/work"
  packageNameOfDir := fun _ => .ok "workpkg"
  generate := fun _ _ _ _ => .ok "generated"
  output := fun _ _ => .ok ()

/-- A concrete environment in which `Generate` fails. -/
def envGenFail : Env where
  sourceMode := fun _ _ _ _ => .ok ⟨1⟩
  reflectMode := fun _ _ => .ok ⟨2⟩
  getwd := .ok "/work"
  packageNameOfDir := fun _ => .ok "workpkg"
  generate := fun _ _ _ _ => .error "gen broke"
  output := fun _ _ => .ok ()

/-! ### Helper lemmas about the phases -/

theorem mainRun_version_eq (env : Env) (fl : FlagValues) (args : List String)
    (hv : fl.showVersion = true) :
    mainRun env fl args = ⟨[Event.printVersion], .success⟩ := by
  simp [mainRun, hv]

theorem mainRun_of_extract_error (env : Env) (fl : FlagValues) (args : List String)
    (m : String) (hv : fl.showVersion = false)
    (h : (extractPhase env fl args).2 = .error m) :
    mainRun env fl args = ⟨(extractPhase env fl args).1, .fatal m⟩ := by
  unfold mainRun
  rw [if_neg (by simp [hv])]
  rcases hE : extractPhase env fl args with ⟨pre, r⟩
  rw [hE] at h
  rcases r with m' | p
  · simp only [Except.error.injEq] at h
    subst h
    rfl
  · simp at h

theorem mainRun_of_extract_ok (env : Env) (fl : FlagValues) (args : List String)
    (pkg : Package) (pn : String) (hv : fl.showVersion = false)
    (h : (extractPhase env fl args).2 = .ok (pkg, pn)) :
    mainRun env fl args = runTail env fl args (extractPhase env fl args).1 pkg pn := by
  unfold mainRun
  rw [if_neg (by simp [hv])]
  rcases hE : extractPhase env fl args with ⟨pre, r⟩
  rw [hE] at h
  rcases r with m' | p
  · simp at h
  · rcases p with ⟨pkg', pn'⟩
    simp only [Except.ok.injEq, Prod.mk.injEq] at h
    rw [h.1, h.2]

theorem countP_append (p : Event → Bool) (a b : List Event) :
    countP p (a ++ b) = countP p a + countP p b := by
  simp [countP, List.filter_append]

/-- Every event emitted by the extraction phase is a usage print, a
`SourceMode` call or a `ReflectMode` call. -/
theorem extractPhase_event_kinds (env : Env) (fl : FlagValues) (args : List String) :
    ∀ e ∈ (extractPhase env fl args).1,
      e.isGenerateCall = false ∧ e.isOutputCall = false ∧ e.isPrintPackage = false := by
  intro e he
  unfold extractPhase at he
  split at he
  · split at he <;>
      simp_all [Event.isGenerateCall, Event.isOutputCall, Event.isPrintPackage]
  · split at he
    · simp_all [Event.isGenerateCall, Event.isOutputCall, Event.isPrintPackage]
    · split at he
      · simp_all
      · split at he <;>
          simp_all [Event.isGenerateCall, Event.isOutputCall, Event.isPrintPackage]

/-- The extraction phase emits no `ReflectMode` call carrying a symbol
list other than the comma-split of `flag.Arg(1)`. -/
theorem extractPhase_reflect_syms (env : Env) (fl : FlagValues) (args : List String)
    (name : String) (syms : List String)
    (hmem : Event.callReflectMode name syms ∈ (extractPhase env fl args).1) :
    syms = goSplitComma (goArg args 1) := by
  unfold extractPhase at hmem
  split at hmem
  · split at hmem <;> simp_all
  · split at hmem
    · simp_all
    · split at hmem
      · simp_all
      · split at hmem <;>
          · simp only [List.mem_singleton] at hmem
            simpa using congrArg (fun ev =>
              match ev with
              | Event.callReflectMode _ l => l
              | _ => []) hmem

/-- In source mode the extraction phase emits exactly one `SourceMode` call
with the four flag values, and no `ReflectMode` call. -/
theorem extractPhase_source (env : Env) (fl : FlagValues) (args : List String)
    (hs : fl.source ≠ "") :
    (extractPhase env fl args).1 =
      [Event.callSourceMode fl.source fl.importsFlag fl.excludeInterfaces fl.auxFiles] := by
  unfold extractPhase
  rcases hsm : env.sourceMode fl.source fl.importsFlag fl.excludeInterfaces fl.auxFiles with e | pkg <;>
    simp [hs, hsm]

/-- With `-source` empty the extraction phase never calls `SourceMode`. -/
theorem extractPhase_reflect_no_source (env : Env) (fl : FlagValues) (args : List String)
    (hs : fl.source = "") :
    countP Event.isSourceCall (extractPhase env fl args).1 = 0 := by
  unfold extractPhase
  rw [if_neg (by simp [hs])]
  split
  · simp [countP, Event.isSourceCall]
  · split
    · simp [countP]
    · split <;> simp [countP, Event.isSourceCall]

theorem countP_eq_zero (p : Event → Bool) (l : List Event)
    (h : ∀ e ∈ l, p e = false) : countP p l = 0 := by
  simp only [countP, List.length_eq_zero, List.filter_eq_nil_iff]
  intro e he
  simp [h e he]

/-- With `-source` empty and a wrong positional-argument count, the
extraction phase prints the usage text and fails with the exact
`log.Fatal` message. -/
theorem extractPhase_badargs (env : Env) (fl : FlagValues) (args : List String)
    (hs : fl.source = "") (hn : args.length ≠ 2) :
    extractPhase env fl args = ([.printUsage], .error "Expected exactly two arguments") := by
  unfold extractPhase
  rw [if_neg (by simp [hs]), if_pos hn]

/-- With `-source` empty, two arguments and a failing locator resolution,
the extraction phase fails with the resolution message and emits no call. -/
theorem extractPhase_resolve_error (env : Env) (fl : FlagValues) (args : List String)
    (m : String) (hs : fl.source = "") (hn : args.length = 2)
    (hr : resolvePackageName env (goArg args 0) = .error m) :
    extractPhase env fl args = ([], .error m) := by
  unfold extractPhase
  rw [if_neg (by simp [hs]), if_neg (by simp [hn]), hr]

/-- With `-source` empty, two arguments and a resolved locator, the
extraction phase emits exactly one `ReflectMode` call, with the resolved
name and the comma-split of `flag.Arg(1)`. -/
theorem extractPhase_reflect_resolved (env : Env) (fl : FlagValues) (args : List String)
    (name : String) (hs : fl.source = "") (hn : args.length = 2)
    (hr : resolvePackageName env (goArg args 0) = .ok name) :
    (extractPhase env fl args).1 =
      [Event.callReflectMode name (goSplitComma (goArg args 1))] := by
  unfold extractPhase
  rw [if_neg (by simp [hs]), if_neg (by simp [hn]), hr]
  rcases hR : env.reflectMode name (goSplitComma (goArg args 1)) with e | pkg <;> simp [hR]

/-- A run whose extraction phase succeeded produced that success through
exactly one extractor call. -/
theorem extractPhase_ok_one_extractor (env : Env) (fl : FlagValues) (args : List String)
    (pkg : Package) (pn : String)
    (h : (extractPhase env fl args).2 = .ok (pkg, pn)) :
    countP Event.isSourceCall (extractPhase env fl args).1 +
      countP Event.isReflectCall (extractPhase env fl args).1 = 1 := by
  unfold extractPhase at h ⊢
  split at h
  · split at h <;>
      simp_all [countP, Event.isSourceCall, Event.isReflectCall]
  · split at h
    · simp_all
    · split at h
      · simp_all
      · split at h <;>
          simp_all [countP, Event.isSourceCall, Event.isReflectCall]

/-- The debug-parser tail: dump the package and return. -/
theorem runTail_debug (env : Env) (fl : FlagValues) (args : List String)
    (pre : List Event) (pkg : Package) (packageName : String)
    (hd : fl.debugParser = true) :
    runTail env fl args pre pkg packageName = ⟨pre ++ [.printPackage pkg], .success⟩ := by
  simp [runTail, hd]

/-- Counting events in the tail of a run: the tail only appends
`printPackage`, `callGenerate` and `callOutput` events, so any classifier
rejecting those three kinds counts the same on the whole trace as on the
prefix. -/
theorem runTail_countP (env : Env) (fl : FlagValues) (args : List String)
    (pre : List Event) (pkg : Package) (packageName : String) (p : Event → Bool)
    (h1 : ∀ q, p (Event.printPackage q) = false)
    (h2 : ∀ q a b f, p (Event.callGenerate q a b f) = false)
    (h3 : ∀ d b, p (Event.callOutput d b) = false) :
    countP p (runTail env fl args pre pkg packageName).events = countP p pre := by
  unfold runTail
  split
  · simp [countP_append, countP, h1]
  · split
    · simp [countP_append, countP, h2]
    · split <;> simp [countP_append, countP, h2, h3]

/-- Any `callGenerate` event of the tail that is not already in the prefix
carries the package, the package name, `flag.Arg(1)` and the flag
structure of that run. -/
theorem runTail_generate_mem (env : Env) (fl : FlagValues) (args : List String)
    (pre : List Event) (pkg : Package) (packageName : String)
    (q : Package) (a b : String) (fls : Flags)
    (hn : Event.callGenerate q a b fls ∉ pre)
    (hmem : Event.callGenerate q a b fls ∈ (runTail env fl args pre pkg packageName).events) :
    q = pkg ∧ a = packageName ∧ b = goArg args 1 ∧ fls = mkFlags fl := by
  unfold runTail at hmem
  split at hmem
  · simp only [List.mem_append, List.mem_singleton] at hmem
    rcases hmem with h | h
    · exact absurd h hn
    · exact absurd h (by simp)
  · split at hmem
    · simp only [List.mem_append, List.mem_singleton] at hmem
      rcases hmem with h | h
      · exact absurd h hn
      · simpa using h
    · split at hmem <;>
        · simp only [List.mem_append, List.mem_cons, List.mem_singleton,
            List.not_mem_nil, or_false] at hmem
          rcases hmem with h | h | h
          · exact absurd h hn
          · simpa using h
          · exact absurd h (by simp)

/-- An event of the tail of a run that is neither a `Generate` call, an
output call nor a package dump already belongs to the extraction prefix. -/
theorem runTail_mem_pre (env : Env) (fl : FlagValues) (args : List String)
    (pre : List Event) (pkg : Package) (packageName : String) (e : Event)
    (hg : e.isGenerateCall = false) (ho : e.isOutputCall = false)
    (hp : e.isPrintPackage = false)
    (hmem : e ∈ (runTail env fl args pre pkg packageName).events) : e ∈ pre := by
  unfold runTail at hmem
  split at hmem
  · rcases List.mem_append.mp hmem with h | h
    · exact h
    · simp only [List.mem_singleton] at h
      subst h
      simp [Event.isPrintPackage] at hp
  · split at hmem
    · rcases List.mem_append.mp hmem with h | h
      · exact h
      · simp only [List.mem_singleton] at h
        subst h
        simp [Event.isGenerateCall] at hg
    · split at hmem <;>
        · rcases List.mem_append.mp hmem with h | h
          · exact h
          · rcases List.mem_cons.mp h with h1 | h1
            · subst h1
              simp [Event.isGenerateCall] at hg
            · simp only [List.mem_singleton] at h1
              subst h1
              simp [Event.isOutputCall] at ho

/-- A `ReflectMode` call of the extraction phase carries the resolved
locator: when the first argument is not `"."`, that is the first argument
itself, and in general it is whatever `resolvePackageName` returned. -/
theorem extractPhase_reflect_name (env : Env) (fl : FlagValues) (args : List String)
    (name : String) (syms : List String)
    (hmem : Event.callReflectMode name syms ∈ (extractPhase env fl args).1) :
    resolvePackageName env (goArg args 0) = .ok name := by
  unfold extractPhase at hmem
  split at hmem
  · split at hmem <;> simp_all
  · split at hmem
    · simp_all
    · split at hmem
      · simp_all
      · split at hmem <;> simp_all

/-- Shape of a successful non-debug, non-version run: extraction
succeeded, `Generate` succeeded, output succeeded, and the trace is the
extraction prefix followed by exactly one `Generate` call on the extracted
package and one output call. -/
theorem mainRun_success_shape (env : Env) (fl : FlagValues) (args : List String)
    (hv : fl.showVersion = false) (hd : fl.debugParser = false)
    (hsuc : (mainRun env fl args).outcome = .success) :
    ∃ pkg pn buf,
      (extractPhase env fl args).2 = .ok (pkg, pn) ∧
      env.generate pkg pn (goArg args 1) (mkFlags fl) = .ok buf ∧
      env.output fl.destination buf = .ok () ∧
      mainRun env fl args =
        ⟨(extractPhase env fl args).1 ++
            [Event.callGenerate pkg pn (goArg args 1) (mkFlags fl),
              Event.callOutput fl.destination buf], .success⟩ := by
  rcases hE2 : (extractPhase env fl args).2 with m | p
  · rw [mainRun_of_extract_error env fl args m hv hE2] at hsuc
    simp at hsuc
  · rcases p with ⟨pkg, pn⟩
    have hmain := mainRun_of_extract_ok env fl args pkg pn hv hE2
    rw [hmain] at hsuc ⊢
    unfold runTail at hsuc ⊢
    rw [if_neg (by simp [hd])] at hsuc ⊢
    rcases hG : env.generate pkg pn (goArg args 1) (mkFlags fl) with e | buf
    · simp [hG] at hsuc
    · rcases hO : env.output fl.destination buf with e | u
      · simp [hG, hO] at hsuc
      · exact ⟨pkg, pn, buf, rfl, hG, by rw [hO], by simp [hO]⟩

/-- A classifier rejecting dumps, `Generate` calls and output calls counts
the same on a whole (non-version) run as on its extraction prefix. -/
theorem mainRun_countP (env : Env) (fl : FlagValues) (args : List String)
    (p : Event → Bool) (hv : fl.showVersion = false)
    (h1 : ∀ q, p (Event.printPackage q) = false)
    (h2 : ∀ q a b f, p (Event.callGenerate q a b f) = false)
    (h3 : ∀ d b, p (Event.callOutput d b) = false) :
    countP p (mainRun env fl args).events = countP p (extractPhase env fl args).1 := by
  rcases hE2 : (extractPhase env fl args).2 with m | p2
  · rw [mainRun_of_extract_error env fl args m hv hE2]
  · rcases p2 with ⟨pkg, pn⟩
    rw [mainRun_of_extract_ok env fl args pkg pn hv hE2]
    exact runTail_countP env fl args _ pkg pn p h1 h2 h3

/-- An event of a non-version run that is neither a dump, a `Generate`
call nor an output call already occurs in the extraction prefix. -/
theorem mainRun_mem_pre (env : Env) (fl : FlagValues) (args : List String)
    (e : Event) (hv : fl.showVersion = false)
    (hg : e.isGenerateCall = false) (ho : e.isOutputCall = false)
    (hp : e.isPrintPackage = false)
    (hmem : e ∈ (mainRun env fl args).events) : e ∈ (extractPhase env fl args).1 := by
  rcases hE2 : (extractPhase env fl args).2 with m | p2
  · rw [mainRun_of_extract_error env fl args m hv hE2] at hmem
    exact hmem
  · rcases p2 with ⟨pkg, pn⟩
    rw [mainRun_of_extract_ok env fl args pkg pn hv hE2] at hmem
    exact runTail_mem_pre env fl args _ pkg pn e hg ho hp hmem

/-- Every `Generate` call of any run receives `flag.Arg(1)` as the
output-package argument and the flag structure built by `main`. -/
theorem mainRun_generate_mem (env : Env) (fl : FlagValues) (args : List String)
    (q : Package) (a b : String) (fls : Flags)
    (hmem : Event.callGenerate q a b fls ∈ (mainRun env fl args).events) :
    b = goArg args 1 ∧ fls = mkFlags fl := by
  by_cases hv : fl.showVersion = true
  · rw [mainRun_version_eq env fl args hv] at hmem
    simp at hmem
  · have hv' : fl.showVersion = false := by simpa using hv
    rcases hE2 : (extractPhase env fl args).2 with m | p2
    · rw [mainRun_of_extract_error env fl args m hv' hE2] at hmem
      have hk := extractPhase_event_kinds env fl args _ hmem
      simp [Event.isGenerateCall] at hk
    · rcases p2 with ⟨pkg, pn⟩
      rw [mainRun_of_extract_ok env fl args pkg pn hv' hE2] at hmem
      have hnp : Event.callGenerate q a b fls ∉ (extractPhase env fl args).1 := by
        intro hc
        have hk := extractPhase_event_kinds env fl args _ hc
        simp [Event.isGenerateCall] at hk
      have h := runTail_generate_mem env fl args _ pkg pn q a b fls hnp hmem
      exact ⟨h.2.2.1, h.2.2.2⟩

/-! ### Concrete inputs used by the witnesses -/

/-- A source-mode flag set: `-source=foo.go`, everything else default. -/
def flSrc : FlagValues := { defaultFlagValues with source := "foo.go" }

/-- A source-mode flag set with the debug-parser flag also set. -/
def flSrcDebug : FlagValues :=
  { defaultFlagValues with source := "foo.go", debugParser := true }

/-- A flag set with the version flag set together with a source file. -/
def flVersionSrc : FlagValues :=
  { defaultFlagValues with showVersion := true, source := "foo.go" }

/-! ### The claims -/

/-- C8: when the `-version` flag is set, `main` prints the version
information and returns immediately: regardless of the other flags and of
the positional arguments, the run performs no extractor call, no
`Generate` call and no output write, and ends successfully right after the
version print. -/
theorem version_flag_preempts_run (env : Env) (fl : FlagValues) (args : List String)
    (hv : fl.showVersion = true) :
    mainRun env fl args = ⟨[Event.printVersion], Outcome.success⟩ ∧
    countP Event.isSourceCall (mainRun env fl args).events = 0 ∧
    countP Event.isReflectCall (mainRun env fl args).events = 0 ∧
    countP Event.isGenerateCall (mainRun env fl args).events = 0 ∧
    countP Event.isOutputCall (mainRun env fl args).events = 0 := by
  rw [mainRun_version_eq env fl args hv]
  exact ⟨rfl, rfl, rfl, rfl, rfl⟩

/-- Witness for `version_flag_preempts_run`: a version-flagged run that
also names a source file and two positional arguments still only prints
the version. -/
theorem version_flag_preempts_run_witness :
    mainRun envOk flVersionSrc ["a", "b"] = ⟨[Event.printVersion], Outcome.success⟩ ∧
    countP Event.isSourceCall (mainRun envOk flVersionSrc ["a", "b"]).events = 0 ∧
    countP Event.isReflectCall (mainRun envOk flVersionSrc ["a", "b"]).events = 0 ∧
    countP Event.isGenerateCall (mainRun envOk flVersionSrc ["a", "b"]).events = 0 ∧
    countP Event.isOutputCall (mainRun envOk flVersionSrc ["a", "b"]).events = 0 :=
  version_flag_preempts_run envOk flVersionSrc ["a", "b"] rfl

/-- C6: the CLI conveys every recognized generation-option field unchanged
to the generator's options structure: any `Generate` call of any run
receives a flag structure whose fields equal the parsed flag values —
destination package name, self-package import path, per-interface
mock-name overrides, the typed/untyped mode flag, the five header toggles
(command comment, package comment, source comment, generate directive,
copyright file), and the remaining recognized fields. -/
theorem flags_fields_conveyed (env : Env) (fl : FlagValues) (args : List String)
    (pkg : Package) (pn op : String) (fls : Flags)
    (hmem : Event.callGenerate pkg pn op fls ∈ (mainRun env fl args).events) :
    fls.PackageOut = fl.packageOut ∧ fls.SelfPackage = fl.selfPackage ∧
    fls.MockNames = fl.mockNames ∧ fls.Typed = fl.typed ∧
    fls.WriteCmdComment = fl.writeCmdComment ∧
    fls.WritePkgComment = fl.writePkgComment ∧
    fls.WriteSourceComment = fl.writeSourceComment ∧
    fls.WriteGenerateDirective = fl.writeGenerateDirective ∧
    fls.CopyrightFile = fl.copyrightFile ∧
    fls.Source = fl.source ∧ fls.Destination = fl.destination ∧
    fls.Imports = fl.importsFlag ∧ fls.AuxFiles = fl.auxFiles ∧
    fls.ExcludeInterfaces = fl.excludeInterfaces := by
  have h := (mainRun_generate_mem env fl args pkg pn op fls hmem).2
  subst h
  simp [mkFlags]

/-- Witness for `flags_fields_conveyed` at a concrete source-mode run. -/
theorem flags_fields_conveyed_witness :
    Event.callGenerate ⟨1⟩ "" "" (mkFlags flSrc) ∈ (mainRun envOk flSrc []).events ∧
    (mkFlags flSrc).PackageOut = flSrc.packageOut :=
  ⟨by decide, (flags_fields_conveyed envOk flSrc [] ⟨1⟩ "" "" (mkFlags flSrc) (by decide)).1⟩

/-- C5: in a source-mode run the source extractor is invoked exactly once,
with exactly the source-file, import-override, interface-exclusion and
auxiliary-file flag values, in this order, and `ReflectMode` — to which
the exclusion list therefore never flows — is not called at all. -/
theorem source_extractor_arguments (env : Env) (fl : FlagValues) (args : List String)
    (hv : fl.showVersion = false) (hs : fl.source ≠ "") :
    countP Event.isSourceCall (mainRun env fl args).events = 1 ∧
    (∀ sf io ex ax, Event.callSourceMode sf io ex ax ∈ (mainRun env fl args).events →
      sf = fl.source ∧ io = fl.importsFlag ∧ ex = fl.excludeInterfaces ∧
        ax = fl.auxFiles) ∧
    countP Event.isReflectCall (mainRun env fl args).events = 0 := by
  have hpre := extractPhase_source env fl args hs
  refine ⟨?_, ?_, ?_⟩
  · rw [mainRun_countP env fl args Event.isSourceCall hv (fun _ => rfl)
      (fun _ _ _ _ => rfl) (fun _ _ => rfl), hpre]
    simp [countP, Event.isSourceCall]
  · intro sf io ex ax hmem
    have h := mainRun_mem_pre env fl args (Event.callSourceMode sf io ex ax)
      hv rfl rfl rfl hmem
    rw [hpre] at h
    simpa using h
  · rw [mainRun_countP env fl args Event.isReflectCall hv (fun _ => rfl)
      (fun _ _ _ _ => rfl) (fun _ _ => rfl), hpre]
    simp [countP, Event.isReflectCall]

/-- Witness for `source_extractor_arguments` at a concrete run. -/
theorem source_extractor_arguments_witness :
    countP Event.isSourceCall (mainRun envOk flSrc []).events = 1 ∧
    countP Event.isReflectCall (mainRun envOk flSrc []).events = 0 :=
  ⟨(source_extractor_arguments envOk flSrc [] rfl (by decide)).1,
    (source_extractor_arguments envOk flSrc [] rfl (by decide)).2.2⟩

/-- C2: with `-debug_parser` set (and `-version` unset), a successful
extraction is followed by the structured dump of the extracted package and
an immediate normal return — no `Generate` call and no output write occur
— while an extraction failure still terminates the run fatally with the
extraction message, before any dump is printed. -/
theorem debug_parser_dump_only (env : Env) (fl : FlagValues) (args : List String)
    (hv : fl.showVersion = false) (hd : fl.debugParser = true) :
    (∀ pkg pn, (extractPhase env fl args).2 = .ok (pkg, pn) →
      mainRun env fl args =
        ⟨(extractPhase env fl args).1 ++ [Event.printPackage pkg], .success⟩ ∧
      countP Event.isGenerateCall (mainRun env fl args).events = 0 ∧
      countP Event.isOutputCall (mainRun env fl args).events = 0) ∧
    (∀ m, (extractPhase env fl args).2 = .error m →
      (mainRun env fl args).outcome = .fatal m ∧
      countP Event.isPrintPackage (mainRun env fl args).events = 0) := by
  constructor
  · intro pkg pn hok
    have hm := mainRun_of_extract_ok env fl args pkg pn hv hok
    rw [hm, runTail_debug env fl args _ pkg pn hd]
    refine ⟨rfl, ?_, ?_⟩
    · apply countP_eq_zero
      intro e he
      rcases List.mem_append.mp he with h | h
      · exact (extractPhase_event_kinds env fl args e h).1
      · simp only [List.mem_singleton] at h
        subst h
        rfl
    · apply countP_eq_zero
      intro e he
      rcases List.mem_append.mp he with h | h
      · exact (extractPhase_event_kinds env fl args e h).2.1
      · simp only [List.mem_singleton] at h
        subst h
        rfl
  · intro m herr
    rw [mainRun_of_extract_error env fl args m hv herr]
    refine ⟨rfl, ?_⟩
    apply countP_eq_zero
    intro e he
    exact (extractPhase_event_kinds env fl args e he).2.2

/-- Witness for `debug_parser_dump_only`: a debug run dumps and returns,
and a debug run with a failing extraction dies with the extraction
message. -/
theorem debug_parser_dump_only_witness :
    mainRun envOk flSrcDebug [] =
      ⟨(extractPhase envOk flSrcDebug []).1 ++ [Event.printPackage ⟨1⟩], .success⟩ ∧
    (mainRun envExtractFail flSrcDebug []).outcome =
      .fatal "Loading input failed: bad source" :=
  ⟨((debug_parser_dump_only envOk flSrcDebug [] rfl rfl).1 ⟨1⟩ "" rfl).1,
    ((debug_parser_dump_only envExtractFail flSrcDebug [] rfl rfl).2
      "Loading input failed: bad source" rfl).1⟩

/-- C3: with `-source` empty (and `-version` unset) the run terminates
fatally with "Expected exactly two arguments" — calling no extractor —
unless exactly two positional arguments are present; and any `ReflectMode`
call receives the comma-split of the second argument as its symbol list
and, when the first argument is not `"."`, the first argument itself as
the package locator. -/
theorem reflect_mode_argument_check (env : Env) (fl : FlagValues) (args : List String)
    (hv : fl.showVersion = false) (hs : fl.source = "") :
    (args.length ≠ 2 →
      mainRun env fl args =
        ⟨[Event.printUsage], .fatal "Expected exactly two arguments"⟩) ∧
    (∀ name syms, Event.callReflectMode name syms ∈ (mainRun env fl args).events →
      syms = goSplitComma (goArg args 1) ∧
      (goArg args 0 ≠ "." → name = goArg args 0)) := by
  constructor
  · intro hn
    have hE := extractPhase_badargs env fl args hs hn
    have hm := mainRun_of_extract_error env fl args "Expected exactly two arguments"
      hv (by rw [hE])
    rw [hm, hE]
  · intro name syms hmem
    have h := mainRun_mem_pre env fl args (Event.callReflectMode name syms)
      hv rfl rfl rfl hmem
    refine ⟨extractPhase_reflect_syms env fl args name syms h, ?_⟩
    intro h0
    have hr := extractPhase_reflect_name env fl args name syms h
    unfold resolvePackageName at hr
    rw [if_neg h0] at hr
    exact (Except.ok.inj hr).symm

/-- Witness for `reflect_mode_argument_check`: zero arguments die with the
exact message, and a two-argument run splits the second argument. -/
theorem reflect_mode_argument_check_witness :
    mainRun envOk defaultFlagValues [] =
      ⟨[Event.printUsage], .fatal "Expected exactly two arguments"⟩ ∧
    ["A", "B"] = goSplitComma (goArg ["pkg", "A,B"] 1) ∧
    "pkg" = goArg ["pkg", "A,B"] 0 :=
  ⟨(reflect_mode_argument_check envOk defaultFlagValues [] rfl rfl).1 (by decide),
    ((reflect_mode_argument_check envOk defaultFlagValues ["pkg", "A,B"] rfl rfl).2
      "pkg" ["A", "B"] (by decide)).1,
    ((reflect_mode_argument_check envOk defaultFlagValues ["pkg", "A,B"] rfl rfl).2
      "pkg" ["A", "B"] (by decide)).2 (by decide)⟩

/-- C4: on any failure the run exits with status 1 and no generated output
is written: an extraction error yields a fatal outcome with no `Generate`
call and no output call, and a `Generate` error yields a fatal outcome
with no output call. -/
theorem no_partial_output_on_failure (env : Env) (fl : FlagValues) (args : List String)
    (hv : fl.showVersion = false) :
    (∀ m, (extractPhase env fl args).2 = .error m →
      (mainRun env fl args).outcome = .fatal m ∧
      (mainRun env fl args).outcome.exitCode = 1 ∧
      countP Event.isGenerateCall (mainRun env fl args).events = 0 ∧
      countP Event.isOutputCall (mainRun env fl args).events = 0) ∧
    (∀ pkg pn e, (extractPhase env fl args).2 = .ok (pkg, pn) →
      fl.debugParser = false →
      env.generate pkg pn (goArg args 1) (mkFlags fl) = .error e →
      (mainRun env fl args).outcome = .fatal ("Failed generating mock: " ++ e) ∧
      (mainRun env fl args).outcome.exitCode = 1 ∧
      countP Event.isOutputCall (mainRun env fl args).events = 0) := by
  constructor
  · intro m herr
    rw [mainRun_of_extract_error env fl args m hv herr]
    refine ⟨rfl, rfl, ?_, ?_⟩
    · apply countP_eq_zero
      intro e he
      exact (extractPhase_event_kinds env fl args e he).1
    · apply countP_eq_zero
      intro e he
      exact (extractPhase_event_kinds env fl args e he).2.1
  · intro pkg pn e hok hd hG
    rw [mainRun_of_extract_ok env fl args pkg pn hv hok]
    unfold runTail
    rw [if_neg (by simp [hd]), hG]
    refine ⟨rfl, rfl, ?_⟩
    apply countP_eq_zero
    intro x hx
    rcases List.mem_append.mp hx with h | h
    · exact (extractPhase_event_kinds env fl args x h).2.1
    · simp only [List.mem_singleton] at h
      subst h
      rfl

/-- Witness for `no_partial_output_on_failure`: a failing source
extraction never reaches `Generate`, and a failing `Generate` never
reaches the output. -/
theorem no_partial_output_on_failure_witness :
    (mainRun envExtractFail flSrc []).outcome =
      .fatal "Loading input failed: bad source" ∧
    countP Event.isGenerateCall (mainRun envExtractFail flSrc []).events = 0 ∧
    (mainRun envGenFail flSrc []).outcome =
      .fatal "Failed generating mock: gen broke" ∧
    countP Event.isOutputCall (mainRun envGenFail flSrc []).events = 0 :=
  ⟨((no_partial_output_on_failure envExtractFail flSrc [] rfl).1
      "Loading input failed: bad source" rfl).1,
    ((no_partial_output_on_failure envExtractFail flSrc [] rfl).1
      "Loading input failed: bad source" rfl).2.2.1,
    ((no_partial_output_on_failure envGenFail flSrc [] rfl).2
      ⟨1⟩ "" "gen broke" rfl rfl rfl).1,
    ((no_partial_output_on_failure envGenFail flSrc [] rfl).2
      ⟨1⟩ "" "gen broke" rfl rfl rfl).2.2⟩

/-- Every event of the extraction prefix also occurs in the run's trace. -/
theorem mainRun_pre_subset (env : Env) (fl : FlagValues) (args : List String)
    (hv : fl.showVersion = false) :
    ∀ e ∈ (extractPhase env fl args).1, e ∈ (mainRun env fl args).events := by
  intro e he
  rcases hE2 : (extractPhase env fl args).2 with m | p2
  · rw [mainRun_of_extract_error env fl args m hv hE2]
    exact he
  · rcases p2 with ⟨pkg, pn⟩
    rw [mainRun_of_extract_ok env fl args pkg pn hv hE2]
    unfold runTail
    split
    · exact List.mem_append.mpr (Or.inl he)
    · split
      · exact List.mem_append.mpr (Or.inl he)
      · split <;> exact List.mem_append.mpr (Or.inl he)

/-- The extraction phase calls `ReflectMode` at most once. -/
theorem extractPhase_reflect_le_one (env : Env) (fl : FlagValues) (args : List String) :
    countP Event.isReflectCall (extractPhase env fl args).1 ≤ 1 := by
  unfold extractPhase
  split
  · split <;> simp [countP, Event.isReflectCall]
  · split
    · simp [countP, Event.isReflectCall]
    · split
      · simp [countP]
      · split <;> simp [countP, Event.isReflectCall]

/-- C9: in reflect mode with the locator `"."`, the locator is resolved
through the working directory before extraction: a working-directory or
package-name failure terminates the run fatally, with the exact message
and without any `ReflectMode` call, while after a successful resolution
every `ReflectMode` call of the run carries the resolved name — never the
raw argument — together with the comma-split symbol list. -/
theorem dot_locator_resolution (env : Env) (fl : FlagValues) (args : List String)
    (hv : fl.showVersion = false) (hs : fl.source = "") (hn : args.length = 2)
    (hdot : goArg args 0 = ".") :
    (∀ e, env.getwd = .error e →
      (mainRun env fl args).outcome =
        .fatal ("Get current directory failed: " ++ e) ∧
      countP Event.isReflectCall (mainRun env fl args).events = 0) ∧
    (∀ dir e, env.getwd = .ok dir → env.packageNameOfDir dir = .error e →
      (mainRun env fl args).outcome = .fatal ("Parse package name failed: " ++ e) ∧
      countP Event.isReflectCall (mainRun env fl args).events = 0) ∧
    (∀ dir name, env.getwd = .ok dir → env.packageNameOfDir dir = .ok name →
      Event.callReflectMode name (goSplitComma (goArg args 1)) ∈
        (mainRun env fl args).events ∧
      (∀ nm syms, Event.callReflectMode nm syms ∈ (mainRun env fl args).events →
        nm = name)) := by
  refine ⟨?_, ?_, ?_⟩
  · intro e he
    have hres : resolvePackageName env (goArg args 0) =
        .error ("Get current directory failed: " ++ e) := by
      unfold resolvePackageName
      rw [if_pos hdot, he]
    have hE := extractPhase_resolve_error env fl args _ hs hn hres
    rw [mainRun_of_extract_error env fl args _ hv (by rw [hE]), hE]
    exact ⟨rfl, rfl⟩
  · intro dir e hdir he
    have hres : resolvePackageName env (goArg args 0) =
        .error ("Parse package name failed: " ++ e) := by
      unfold resolvePackageName
      rw [if_pos hdot]
      simp [hdir, he]
    have hE := extractPhase_resolve_error env fl args _ hs hn hres
    rw [mainRun_of_extract_error env fl args _ hv (by rw [hE]), hE]
    exact ⟨rfl, rfl⟩
  · intro dir name hdir hname
    have hres : resolvePackageName env (goArg args 0) = .ok name := by
      unfold resolvePackageName
      rw [if_pos hdot]
      simp [hdir, hname]
    have hpre := extractPhase_reflect_resolved env fl args name hs hn hres
    constructor
    · apply mainRun_pre_subset env fl args hv
      rw [hpre]
      exact List.mem_singleton.mpr rfl
    · intro nm syms hmem
      have h := mainRun_mem_pre env fl args (Event.callReflectMode nm syms)
        hv rfl rfl rfl hmem
      rw [hpre] at h
      simp only [List.mem_singleton] at h
      simpa using congrArg (fun ev =>
        match ev with
        | Event.callReflectMode x _ => x
        | _ => nm) h

/-- Concrete environments for the `"."`-resolution failure cases. -/
def envGetwdFail : Env := { envOk with getwd := .error "no cwd" }

def envPkgNameFail : Env :=
  { envOk with packageNameOfDir := fun _ => .error "no pkg" }

/-- Witness for `dot_locator_resolution`: the three cases at concrete
inputs. -/
theorem dot_locator_resolution_witness :
    (mainRun envGetwdFail defaultFlagValues [".", "A"]).outcome =
      .fatal "Get current directory failed: no cwd" ∧
    (mainRun envPkgNameFail defaultFlagValues [".", "A"]).outcome =
      .fatal "Parse package name failed: no pkg" ∧
    Event.callReflectMode "workpkg" (goSplitComma (goArg [".", "A"] 1)) ∈
      (mainRun envOk defaultFlagValues [".", "A"]).events :=
  ⟨((dot_locator_resolution envGetwdFail defaultFlagValues [".", "A"]
      rfl rfl rfl rfl).1 "no cwd" rfl).1,
    ((dot_locator_resolution envPkgNameFail defaultFlagValues [".", "A"]
      rfl rfl rfl rfl).2.1 "/work" "no pkg" rfl rfl).1,
    ((dot_locator_resolution envOk defaultFlagValues [".", "A"]
      rfl rfl rfl rfl).2.2 "/work" "workpkg" rfl rfl).1⟩

/-- C10: a non-empty `-source` flag selects source mode unconditionally:
for any number of positional arguments the run extracts (no two-argument
check, no usage print), the positional arguments play no role in the
extraction, and `flag.Arg(1)` — the second positional argument, empty when
absent — is the output-package argument of every `Generate` call in either
mode, so stray positional arguments in source mode reach the generator. -/
theorem source_mode_unconditional (env : Env) (fl : FlagValues) (args : List String)
    (hv : fl.showVersion = false) :
    (fl.source ≠ "" →
      countP Event.isSourceCall (mainRun env fl args).events = 1 ∧
      countP Event.isPrintUsage (mainRun env fl args).events = 0) ∧
    (∀ pkg pn op fls,
      Event.callGenerate pkg pn op fls ∈ (mainRun env fl args).events →
        op = goArg args 1) := by
  constructor
  · intro hsrc
    have hpre := extractPhase_source env fl args hsrc
    constructor
    · rw [mainRun_countP env fl args Event.isSourceCall hv (fun _ => rfl)
        (fun _ _ _ _ => rfl) (fun _ _ => rfl), hpre]
      simp [countP, Event.isSourceCall]
    · rw [mainRun_countP env fl args Event.isPrintUsage hv (fun _ => rfl)
        (fun _ _ _ _ => rfl) (fun _ _ => rfl), hpre]
      simp [countP, Event.isPrintUsage]
  · intro pkg pn op fls hmem
    exact (mainRun_generate_mem env fl args pkg pn op fls hmem).1

/-- Witness for `source_mode_unconditional`: with three positional
arguments and `-source` set, extraction still happens, no usage is
printed, and the stray second argument reaches the `Generate` call. -/
theorem source_mode_unconditional_witness :
    countP Event.isSourceCall (mainRun envOk flSrc ["a", "b", "c"]).events = 1 ∧
    countP Event.isPrintUsage (mainRun envOk flSrc ["a", "b", "c"]).events = 0 ∧
    "b" = goArg ["a", "b", "c"] 1 :=
  ⟨((source_mode_unconditional envOk flSrc ["a", "b", "c"] rfl).1 (by decide)).1,
    ((source_mode_unconditional envOk flSrc ["a", "b", "c"] rfl).1 (by decide)).2,
    (source_mode_unconditional envOk flSrc ["a", "b", "c"] rfl).2
      ⟨1⟩ "" "b" (mkFlags flSrc) (by decide)⟩

/-- C7: in every successful non-debug generation run, exactly one
extractor call occurs, the `Generate` call occurs exactly once, and it
receives exactly the package and package name produced by the extraction
phase, unchanged; the output is then written exactly once. -/
theorem single_package_lifecycle (env : Env) (fl : FlagValues) (args : List String)
    (hv : fl.showVersion = false) (hd : fl.debugParser = false)
    (hsuc : (mainRun env fl args).outcome = .success) :
    countP Event.isSourceCall (mainRun env fl args).events +
      countP Event.isReflectCall (mainRun env fl args).events = 1 ∧
    countP Event.isGenerateCall (mainRun env fl args).events = 1 ∧
    countP Event.isOutputCall (mainRun env fl args).events = 1 ∧
    ∃ pkg pn, (extractPhase env fl args).2 = .ok (pkg, pn) ∧
      Event.callGenerate pkg pn (goArg args 1) (mkFlags fl) ∈
        (mainRun env fl args).events ∧
      (∀ q a b f, Event.callGenerate q a b f ∈ (mainRun env fl args).events →
        q = pkg ∧ a = pn ∧ b = goArg args 1 ∧ f = mkFlags fl) := by
  obtain ⟨pkg, pn, buf, hok, hG, hO, heq⟩ :=
    mainRun_success_shape env fl args hv hd hsuc
  have hev : (mainRun env fl args).events =
      (extractPhase env fl args).1 ++
        [Event.callGenerate pkg pn (goArg args 1) (mkFlags fl),
          Event.callOutput fl.destination buf] := by
    rw [heq]
  rw [hev]
  refine ⟨?_, ?_, ?_, pkg, pn, hok, ?_, ?_⟩
  · have hone := extractPhase_ok_one_extractor env fl args pkg pn hok
    rw [countP_append, countP_append]
    have h1 : countP Event.isSourceCall
        [Event.callGenerate pkg pn (goArg args 1) (mkFlags fl),
          Event.callOutput fl.destination buf] = 0 := rfl
    have h2 : countP Event.isReflectCall
        [Event.callGenerate pkg pn (goArg args 1) (mkFlags fl),
          Event.callOutput fl.destination buf] = 0 := rfl
    omega
  · rw [countP_append, countP_eq_zero Event.isGenerateCall _
      (fun e he => (extractPhase_event_kinds env fl args e he).1)]
    simp [countP, Event.isGenerateCall]
  · rw [countP_append, countP_eq_zero Event.isOutputCall _
      (fun e he => (extractPhase_event_kinds env fl args e he).2.1)]
    simp [countP, Event.isOutputCall]
  · exact List.mem_append.mpr (Or.inr (List.mem_cons_self _ _))
  · intro q a b f hmem
    rcases List.mem_append.mp hmem with h | h
    · have hk := extractPhase_event_kinds env fl args _ h
      simp [Event.isGenerateCall] at hk
    · rcases List.mem_cons.mp h with h1 | h1
      · simpa using h1
      · simp only [List.mem_singleton] at h1
        exact absurd h1 (by simp)

/-- Witness for `single_package_lifecycle` at a concrete successful
source-mode run. -/
theorem single_package_lifecycle_witness :
    countP Event.isSourceCall (mainRun envOk flSrc []).events +
      countP Event.isReflectCall (mainRun envOk flSrc []).events = 1 ∧
    countP Event.isGenerateCall (mainRun envOk flSrc []).events = 1 ∧
    countP Event.isOutputCall (mainRun envOk flSrc []).events = 1 :=
  ⟨(single_package_lifecycle envOk flSrc [] rfl rfl rfl).1,
    (single_package_lifecycle envOk flSrc [] rfl rfl rfl).2.1,
    (single_package_lifecycle envOk flSrc [] rfl rfl rfl).2.2.1⟩

/-- C1 as stated is refuted at a concrete input: a run with `-source`
empty and no positional arguments calls neither extractor — in particular
`ReflectMode` is not called although `-source` is empty, and the run does
not invoke exactly one extractor. -/
theorem one_extractor_counterexample :
    defaultFlagValues.source = "" ∧
    countP Event.isSourceCall (mainRun envOk defaultFlagValues []).events = 0 ∧
    countP Event.isReflectCall (mainRun envOk defaultFlagValues []).events = 0 := by
  decide

/-- C1 (amended): the two extraction paths are mutually exclusive and each
is taken at most once; with `-source` non-empty and `-version` unset,
`SourceMode` is called exactly once and `ReflectMode` never; with
`-source` empty, `SourceMode` is never called, and `ReflectMode` is called
exactly once provided the version check, the two-argument check and the
locator resolution all pass. -/
theorem one_extractor_per_run (env : Env) (fl : FlagValues) (args : List String) :
    (countP Event.isSourceCall (mainRun env fl args).events = 0 ∨
      countP Event.isReflectCall (mainRun env fl args).events = 0) ∧
    countP Event.isSourceCall (mainRun env fl args).events ≤ 1 ∧
    countP Event.isReflectCall (mainRun env fl args).events ≤ 1 ∧
    (fl.showVersion = false → fl.source ≠ "" →
      countP Event.isSourceCall (mainRun env fl args).events = 1 ∧
      countP Event.isReflectCall (mainRun env fl args).events = 0) ∧
    (fl.source = "" → countP Event.isSourceCall (mainRun env fl args).events = 0) ∧
    (fl.showVersion = false → fl.source = "" → args.length = 2 →
      ∀ name, resolvePackageName env (goArg args 0) = .ok name →
        countP Event.isReflectCall (mainRun env fl args).events = 1) := by
  by_cases hv : fl.showVersion = true
  · rw [mainRun_version_eq env fl args hv]
    refine ⟨Or.inl rfl, by simp [countP, Event.isSourceCall],
      by simp [countP, Event.isReflectCall], ?_, fun _ => rfl, ?_⟩
    · intro h _
      rw [hv] at h
      cases h
    · intro h _
      rw [hv] at h
      cases h
  · have hv' : fl.showVersion = false := by simpa using hv
    have hcS := mainRun_countP env fl args Event.isSourceCall hv' (fun _ => rfl)
      (fun _ _ _ _ => rfl) (fun _ _ => rfl)
    have hcR := mainRun_countP env fl args Event.isReflectCall hv' (fun _ => rfl)
      (fun _ _ _ _ => rfl) (fun _ _ => rfl)
    by_cases hs : fl.source = ""
    · have hzS : countP Event.isSourceCall (mainRun env fl args).events = 0 := by
        rw [hcS]
        exact extractPhase_reflect_no_source env fl args hs
      refine ⟨Or.inl hzS, by omega, ?_, ?_, fun _ => hzS, ?_⟩
      · rw [hcR]
        exact extractPhase_reflect_le_one env fl args
      · intro _ hne
        exact absurd hs hne
      · intro _ _ hn name hres
        rw [hcR, extractPhase_reflect_resolved env fl args name hs hn hres]
        rfl
    · have hpre := extractPhase_source env fl args hs
      have h1 : countP Event.isSourceCall (mainRun env fl args).events = 1 := by
        rw [hcS, hpre]
        rfl
      have h0 : countP Event.isReflectCall (mainRun env fl args).events = 0 := by
        rw [hcR, hpre]
        rfl
      exact ⟨Or.inr h0, by omega, by omega, fun _ _ => ⟨h1, h0⟩,
        fun h => absurd h hs, fun _ h _ _ _ => absurd h hs⟩

/-- Witness for `one_extractor_per_run`: one `SourceMode` call in a
source-mode run, one `ReflectMode` call in a two-argument reflect run. -/
theorem one_extractor_per_run_witness :
    countP Event.isSourceCall (mainRun envOk flSrc []).events = 1 ∧
    countP Event.isReflectCall
      (mainRun envOk defaultFlagValues ["pkg", "A"]).events = 1 :=
  ⟨((one_extractor_per_run envOk flSrc []).2.2.2.1 rfl (by decide)).1,
    (one_extractor_per_run envOk defaultFlagValues ["pkg", "A"]).2.2.2.2.2
      rfl rfl rfl "pkg" rfl⟩

end MockgenCli
